import Mathlib

/-! lighter-web-keygen: the WASM key and signing entry points

A shallow embedding of `wasm_source/lighter_full.go`: the four functions the
module exports to the JavaScript host (`generateApiKey`, `setCurrentKey`,
`signChangePubKey`, `getDefaultKey`) together with the package variable
`currentKeyManager`.

* The package variable is threaded explicitly: every entry point takes the
  held key manager and returns the one held afterwards.
* A Go panic (raised by `syscall/js` accessors on a value of the wrong type)
  is the `Except.error` outcome; a normal return is `Except.ok`.
* The cryptographic packages the file imports (`signer`, `txtypes`,
  `ecgfp5`, `schnorr`) are not part of the module; they are the fields of
  `Lib`, and every theorem holds for an arbitrary `Lib`.
* Randomness drawn by the libraries during one call is the explicit
  argument `e : L.Entropy`.
-/

namespace Lighter

/-! ## Go standard library: `strings`, `encoding/hex`, `encoding/base64` -/

/-- Bytes of a Go string: the UTF-8 encoding of its characters. -/
def goBytes (s : String) : List Nat :=
  s.data.flatMap fun c => (String.utf8EncodeChar c).map UInt8.toNat

/-- `strings.HasPrefix`. -/
def HasPrefix (s pre : String) : Bool :=
  pre.data.isPrefixOf s.data

/-- `strings.TrimPrefix`: `s` without the leading `pre`, or `s` itself when
it does not start with `pre`. -/
def TrimPrefix (s pre : String) : String :=
  if HasPrefix s pre then ⟨s.data.drop pre.data.length⟩ else s

/-- Errors of `encoding/hex`. -/
inductive HexError
  | InvalidByteError (b : Nat)
  | ErrLength
  deriving DecidableEq, Repr

/-- Upper-case hexadecimal digit. -/
def upperHexDigit (n : Nat) : Char :=
  "0123456789ABCDEF".data.getD (n % 16) '0'

/-- `strconv.IsPrint` on a rune below 256. -/
def isPrintLatin1 (r : Nat) : Bool :=
  (0x20 ≤ r && r ≤ 0x7E) || (0xA1 ≤ r && r ≤ 0xFF && r != 0xAD)

/-- The verb `%#U` applied to a rune below 256. -/
def fmtSharpU (r : Nat) : String :=
  let code := String.mk
    ['U', '+', '0', '0', upperHexDigit (r / 16), upperHexDigit r]
  if isPrintLatin1 r then code ++ " '" ++ String.singleton (Char.ofNat r) ++ "'"
  else code

/-- The method `Error()` of the `encoding/hex` errors. -/
def HexError.Error : HexError → String
  | .InvalidByteError b => "encoding/hex: invalid byte: " ++ fmtSharpU b
  | .ErrLength => "encoding/hex: odd length hex string"

/-- `fromHexChar`: the value of a hexadecimal digit. -/
def fromHexChar (c : Nat) : Option Nat :=
  if 48 ≤ c ∧ c ≤ 57 then some (c - 48)
  else if 97 ≤ c ∧ c ≤ 102 then some (c - 97 + 10)
  else if 65 ≤ c ∧ c ≤ 70 then some (c - 65 + 10)
  else none

/-- `hex.Decode`: pairs of digits from the left; the first invalid byte is
reported, and an odd length only when no byte is invalid. -/
def hexDecode : List Nat → Except HexError (List Nat)
  | [] => .ok []
  | [p] =>
    match fromHexChar p with
    | none => .error (.InvalidByteError p)
    | some _ => .error .ErrLength
  | p :: q :: rest =>
    match fromHexChar p, fromHexChar q with
    | none, _ => .error (.InvalidByteError p)
    | some _, none => .error (.InvalidByteError q)
    | some a, some b =>
      match hexDecode rest with
      | .ok bs => .ok ((a * 16 + b) :: bs)
      | .error err => .error err

/-- `hex.DecodeString`. -/
def DecodeString (s : String) : Except HexError (List Nat) :=
  hexDecode (goBytes s)

/-- Lower-case hexadecimal digit (`hextable`). -/
def hexDigit (n : Nat) : Char :=
  "0123456789abcdef".data.getD (n % 16) '0'

/-- `hex.EncodeToString`. -/
def EncodeToString (bs : List Nat) : String :=
  String.mk (bs.flatMap fun b => [hexDigit (b / 16), hexDigit b])

/-- The alphabet of `base64.StdEncoding`. -/
def encodeStd : String :=
  "ABCDEFGHIJKLMNOPQRSTUVWXYZabcdefghijklmnopqrstuvwxyz0123456789+/"

/-- One base64 digit. -/
def b64Digit (n : Nat) : Char :=
  encodeStd.data.getD (n % 64) '='

/-- Groups of three bytes to four digits, the last group padded with `=`. -/
def b64Chars : List Nat → List Char
  | [] => []
  | [a] => [b64Digit (a / 4), b64Digit (a % 4 * 16), '=', '=']
  | [a, b] =>
    [b64Digit (a / 4), b64Digit (a % 4 * 16 + b / 16), b64Digit (b % 16 * 4), '=']
  | a :: b :: c :: rest =>
    b64Digit (a / 4) :: b64Digit (a % 4 * 16 + b / 16) ::
      b64Digit (b % 16 * 4 + c / 64) :: b64Digit c :: b64Chars rest

/-- `base64.StdEncoding.EncodeToString`. -/
def base64StdEncodeToString (bs : List Nat) : String :=
  String.mk (b64Chars bs)

/-! ## `syscall/js` values -/

/-- A JavaScript value as `syscall/js` sees it. Numbers are the integral
ones, the kind the numeric properties of the parameter object hold; an
object or a function is the list of its properties. -/
inductive JSValue
  | undefined
  | null
  | boolean (b : Bool)
  | number (n : Int)
  | string (s : String)
  | symbol
  | object (props : List (String × JSValue))
  | function (props : List (String × JSValue))

/-- `js.Type`. -/
inductive JSType
  | TypeUndefined | TypeNull | TypeBoolean | TypeNumber
  | TypeString | TypeSymbol | TypeObject | TypeFunction
  deriving DecidableEq, Repr

/-- The panic value `*js.ValueError`: an accessor called on a value of the
wrong type. -/
structure ValueError where
  Method : String
  Kind : JSType
  deriving DecidableEq, Repr

/-- `Value.Type()`. -/
def JSValue.TypeOf : JSValue → JSType
  | .undefined => .TypeUndefined
  | .null => .TypeNull
  | .boolean _ => .TypeBoolean
  | .number _ => .TypeNumber
  | .string _ => .TypeString
  | .symbol => .TypeSymbol
  | .object _ => .TypeObject
  | .function _ => .TypeFunction

/-- `Value.String()`: the string itself for a string, and a description in
angle brackets for any other value (a number in decimal digits, as
JavaScript prints an integer); it never panics. -/
def JSValue.StringOf : JSValue → String
  | .string s => s
  | .undefined => "<undefined>"
  | .null => "<null>"
  | .boolean b => "<boolean: " ++ (if b then "true" else "false") ++ ">"
  | .number n => "<number: " ++ toString n ++ ">"
  | .symbol => "<symbol>"
  | .object _ => "<object>"
  | .function _ => "<function>"

/-- `Value.Get`: the property, `undefined` when absent; panics unless the
receiver is an object or a function. -/
def JSValue.Get (v : JSValue) (p : String) : Except ValueError JSValue :=
  match v with
  | .object props => .ok ((props.lookup p).getD .undefined)
  | .function props => .ok ((props.lookup p).getD .undefined)
  | other => .error ⟨"Value.Get", other.TypeOf⟩

/-- Least `int64`. -/
def minInt64 : Int := -(2 ^ 63)

/-- Greatest `int64`. -/
def maxInt64 : Int := 2 ^ 63 - 1

/-- Conversion of a `float64` to a 64-bit integer: exact when the value
fits; otherwise Go leaves the result to the implementation, here `ovf`. -/
def floatToInt64 (ovf : Int → Int) (n : Int) : Int :=
  if minInt64 ≤ n ∧ n ≤ maxInt64 then n else ovf n

/-- `int64(v.Float())`; `Value.Float` panics unless the value is a number. -/
def JSValue.FloatInt64 (ovf : Int → Int) (v : JSValue) : Except ValueError Int :=
  match v with
  | .number n => .ok (floatToInt64 ovf n)
  | other => .error ⟨"Value.Float", other.TypeOf⟩

/-- `Value.Int`: the number truncated to `int` (64 bits on wasm); panics
unless the value is a number. -/
def JSValue.Int (ovf : Int → Int) (v : JSValue) : Except ValueError Int :=
  match v with
  | .number n => .ok (floatToInt64 ovf n)
  | other => .error ⟨"Value.Int", other.TypeOf⟩

/-- The conversion `uint8(x)` of an `int`. -/
def toUint8 (x : Int) : Nat := (x % 256).toNat

/-- The conversion `uint32(x)` of an `int`. -/
def toUint32 (x : Int) : Nat := (x % 2 ^ 32).toNat

/-! ## Values returned to the host -/

/-- A Go value placed in a returned `map[string]interface{}`. -/
inductive GoVal
  | nil
  | str (s : String)
  | bool (b : Bool)
  | int (n : Int)
  | map (m : List (String × GoVal))

/-- A returned `map[string]interface{}`, keys in the order of the literal. -/
abbrev Result := List (String × GoVal)

/-- The value stored under a key. -/
def Result.field (r : Result) (k : String) : Option GoVal := r.lookup k

/-! ## The imported cryptographic packages -/

/-- `txtypes.L2ChangePubKeyTxInfo`, the fields the module sets. -/
structure L2ChangePubKeyTxInfo where
  AccountIndex : Int
  ApiKeyIndex : Nat
  Nonce : Int
  PubKey : List Nat
  ExpiredAt : Int
  deriving DecidableEq, Repr

/-- The functions of the packages `ecgfp5`, `schnorr`, `signer` and
`txtypes` the module calls, and the platform's out-of-range float
conversion. An error is the text of its `Error()` method. -/
structure Lib where
  /-- `ecgfp5.ECgFp5Scalar` -/
  Scalar : Type
  /-- `gFp5.Element`, a Schnorr public key -/
  Point : Type
  /-- `signer.KeyManager` -/
  KeyManager : Type
  /-- `hash.Hash`, the optional second argument of `Sign` -/
  HashFunc : Type
  /-- the random bytes a call may draw -/
  Entropy : Type
  /-- `curve.SampleScalar(seed *string)`; `none` is the nil pointer -/
  SampleScalar : Option String → Entropy → Scalar
  /-- `schnorr.SchnorrPkFromSk` -/
  SchnorrPkFromSk : Scalar → Point
  /-- `ECgFp5Scalar.ToLittleEndianBytes` -/
  ScalarToLittleEndianBytes : Scalar → List Nat
  /-- `gFp5.Element.ToLittleEndianBytes` -/
  PointToLittleEndianBytes : Point → List Nat
  /-- `signer.NewKeyManager` -/
  NewKeyManager : List Nat → Except String KeyManager
  /-- `KeyManager.PubKeyBytes` -/
  PubKeyBytes : KeyManager → List Nat
  /-- `KeyManager.Sign` -/
  Sign : KeyManager → List Nat → Option HashFunc → Entropy → Except String (List Nat)
  /-- `L2ChangePubKeyTxInfo.Hash(chainId)` -/
  Hash : L2ChangePubKeyTxInfo → Nat → Except String (List Nat)
  /-- `L2ChangePubKeyTxInfo.GetL1SignatureBody` -/
  GetL1SignatureBody : L2ChangePubKeyTxInfo → String
  /-- result of converting a float outside the `int64` range -/
  floatOverflow : Int → Int

/-- The package variable `currentKeyManager`: `none` is the nil interface. -/
abbrev KeyState (L : Lib) := Option L.KeyManager

/-- Value of `currentKeyManager` when the program starts. -/
def initialState (L : Lib) : KeyState L := none

/-- What a call does: it panics, or it returns a record and leaves a held
key manager. -/
abbrev Outcome (L : Lib) := Except ValueError (Result × KeyState L)

/-! ## The exported functions -/

/-- `generateApiKey`. -/
def generateApiKey (L : Lib) (held : KeyState L) (e : L.Entropy)
    (_args : List JSValue) : Outcome L :=
  let sk := L.SampleScalar none e
  let pk := L.SchnorrPkFromSk sk
  let skBytes := L.ScalarToLittleEndianBytes sk
  let pkBytes := L.PointToLittleEndianBytes pk
  .ok ([("privateKey", .str (EncodeToString skBytes)),
        ("publicKey", .str (EncodeToString pkBytes)),
        ("error", .nil)], held)

/-- `setCurrentKey`. -/
def setCurrentKey (L : Lib) (held : KeyState L) (_e : L.Entropy)
    (args : List JSValue) : Outcome L :=
  match args with
  | [] => .ok ([("error", .str "Missing private key")], held)
  | arg0 :: _ =>
    let privateKeyHex := arg0.StringOf
    let privateKeyHex := TrimPrefix privateKeyHex "0x"
    match DecodeString privateKeyHex with
    | .error err =>
      .ok ([("error", .str ("Invalid private key: " ++ err.Error))], held)
    | .ok privateKey =>
      match L.NewKeyManager privateKey with
      | .error err =>
        .ok ([("error", .str ("Failed to create key manager: " ++ err))], held)
      | .ok km =>
        let pubKeyBytes := L.PubKeyBytes km
        .ok ([("success", .bool true),
              ("publicKey", .str (EncodeToString pubKeyBytes)),
              ("error", .nil)], some km)

/-- The part of `signChangePubKey` after the arguments have been read from
the parameter object (source lines 87 to 153). -/
def signChangePubKeyBody (L : Lib) (held : KeyState L) (e : L.Entropy)
    (newPubkeyHex newPrivkeyHex : String) (nonce expiredAt accountIndex : Int)
    (apiKeyIndex chainId : Nat) : Result × KeyState L :=
  let newPubkeyHex := TrimPrefix newPubkeyHex "0x"
  let newPrivkeyHex := TrimPrefix newPrivkeyHex "0x"
  match DecodeString newPubkeyHex with
  | .error err =>
    ([("error", .str ("Invalid public key: " ++ err.Error))], held)
  | .ok newPubkeyBytes =>
    if newPubkeyBytes.length ≠ 40 then
      ([("error", .str ("Public key must be 40 bytes, got " ++
          Nat.repr newPubkeyBytes.length))], held)
    else
      match DecodeString newPrivkeyHex with
      | .error err =>
        ([("error", .str ("Invalid private key: " ++ err.Error))], held)
      | .ok newPrivkeyBytes =>
        match L.NewKeyManager newPrivkeyBytes with
        | .error err =>
          ([("error", .str ("Failed to create key manager for new key: " ++ err))], held)
        | .ok newKeyManager =>
          let l2TxInfo : L2ChangePubKeyTxInfo :=
            { AccountIndex := accountIndex
              ApiKeyIndex := apiKeyIndex
              Nonce := nonce
              PubKey := newPubkeyBytes
              ExpiredAt := expiredAt }
          match L.Hash l2TxInfo chainId with
          | .error err =>
            ([("error", .str ("Failed to hash transaction: " ++ err))], held)
          | .ok hashedMessage =>
            match L.Sign newKeyManager hashedMessage none e with
            | .error err =>
              ([("error", .str ("Failed to sign: " ++ err))], held)
            | .ok sig =>
              let l1Message := L.GetL1SignatureBody l2TxInfo
              ([("transaction", .map
                  [("Sig", .str (base64StdEncodeToString sig)),
                   ("AccountIndex", .int accountIndex),
                   ("ApiKeyIndex", .int apiKeyIndex),
                   ("Nonce", .int nonce),
                   ("PubKey", .str (base64StdEncodeToString newPubkeyBytes)),
                   ("ExpiredAt", .int expiredAt),
                   ("MessageToSign", .str l1Message)]),
                ("messageToSign", .str l1Message),
                ("error", .nil)], held)

/-- The local variables `signChangePubKey` fills from the parameter object
(source lines 79 to 85). -/
structure ChangePubKeyArgs where
  newPubkeyHex : String
  newPrivkeyHex : String
  nonce : Int
  expiredAt : Int
  accountIndex : Int
  apiKeyIndex : Nat
  chainId : Nat
  deriving DecidableEq, Repr

/-- Reading the parameter object, in the order of the source; the first
accessor that panics ends the call. -/
def readParams (ovf : Int → Int) (params : JSValue) : Except ValueError ChangePubKeyArgs := do
  let newPubkeyHex := (← params.Get "newPubkey").StringOf
  let newPrivkeyHex := (← params.Get "newPrivkey").StringOf
  let nonce ← (← params.Get "nonce").FloatInt64 ovf
  let expiredAt ← (← params.Get "expiredAt").FloatInt64 ovf
  let accountIndex ← (← params.Get "accountIndex").FloatInt64 ovf
  let apiKeyIndex := toUint8 (← (← params.Get "apiKeyIndex").Int ovf)
  let chainId := toUint32 (← (← params.Get "chainId").Int ovf)
  pure { newPubkeyHex, newPrivkeyHex, nonce, expiredAt, accountIndex, apiKeyIndex, chainId }

/-- `signChangePubKey`. -/
def signChangePubKey (L : Lib) (held : KeyState L) (e : L.Entropy)
    (args : List JSValue) : Outcome L :=
  match args with
  | [] => .ok ([("error", .str "Missing parameters")], held)
  | params :: _ =>
    match readParams L.floatOverflow params with
    | .error verr => .error verr
    | .ok a =>
      .ok (signChangePubKeyBody L held e a.newPubkeyHex a.newPrivkeyHex a.nonce
        a.expiredAt a.accountIndex a.apiKeyIndex a.chainId)

/-- `getDefaultKey`. -/
def getDefaultKey (L : Lib) (held : KeyState L) (e : L.Entropy)
    (args : List JSValue) : Outcome L :=
  match args with
  | .string seed :: _ =>
    let sk := L.SampleScalar (some seed) e
    let pk := L.SchnorrPkFromSk sk
    let skBytes := L.ScalarToLittleEndianBytes sk
    let pkBytes := L.PointToLittleEndianBytes pk
    .ok ([("privateKey", .str (EncodeToString skBytes)),
          ("publicKey", .str (EncodeToString pkBytes)),
          ("error", .nil)], held)
  | _ => .ok ([("error", .str "Missing seed parameter")], held)

/-! ## The host's view: a sequence of calls -/

/-- The four functions `main` registers on `lighterWASM`. -/
inductive Op
  | generateApiKey | setCurrentKey | signChangePubKey | getDefaultKey
  deriving DecidableEq, Repr

/-- The Go function behind a registered name. -/
def Op.call (L : Lib) : Op → KeyState L → L.Entropy → List JSValue → Outcome L
  | .generateApiKey => Lighter.generateApiKey L
  | .setCurrentKey => Lighter.setCurrentKey L
  | .signChangePubKey => Lighter.signChangePubKey L
  | .getDefaultKey => Lighter.getDefaultKey L

/-- One call by the host: the function, the randomness available to it and
its arguments. -/
structure Call (L : Lib) where
  op : Op
  e : L.Entropy
  args : List JSValue

/-- The held key manager after a sequence of calls, one at a time; a panic
ends the program with the key manager it held. -/
def runCalls (L : Lib) (held : KeyState L) : List (Call L) → KeyState L
  | [] => held
  | c :: cs =>
    match c.op.call L held c.e c.args with
    | .ok (_, held') => runCalls L held' cs
    | .error _ => held

/-- A record whose `error` entry is a message. -/
def Result.isError (r : Result) : Bool :=
  match r.field "error" with
  | some (.str _) => true
  | _ => false

/-- A record that carries a `transaction` entry. -/
def Result.hasTransaction (r : Result) : Bool :=
  (r.field "transaction").isSome

/-- The five numeric properties `signChangePubKey` reads. -/
def numericKeys : List String :=
  ["nonce", "expiredAt", "accountIndex", "apiKeyIndex", "chainId"]

/-- The parameter object holds a JavaScript number under each numeric
property, so that reading them does not panic. -/
def NumericFields (params : JSValue) : Prop :=
  ∀ k ∈ numericKeys, ∃ n : Int, params.Get k = .ok (.number n)

/-- A hex string as the caller may write it: with or without `0x`. -/
def withOptional0x (with0x : Bool) (h : String) : String :=
  if with0x then "0x" ++ h else h

/-! ## Predicates used in the statements -/

/-- The steps of the body that can fail, all succeeding. -/
def StepsSucceed (L : Lib) (e : L.Entropy) (pubHex privHex : String)
    (nonce expiredAt accountIndex : Int) (apiKeyIndex chainId : Nat) : Prop :=
  ∃ (pubBytes privBytes : List Nat) (km : L.KeyManager) (hashed sig : List Nat),
    DecodeString (TrimPrefix pubHex "0x") = .ok pubBytes ∧
    pubBytes.length = 40 ∧
    DecodeString (TrimPrefix privHex "0x") = .ok privBytes ∧
    L.NewKeyManager privBytes = .ok km ∧
    L.Hash ⟨accountIndex, apiKeyIndex, nonce, pubBytes, expiredAt⟩ chainId = .ok hashed ∧
    L.Sign km hashed none e = .ok sig

/-- The seeded path of `curve.SampleScalar` draws no randomness: the scalar
is a function of the seed. -/
def SeededSamplingDeterministic (L : Lib) : Prop :=
  ∀ (seed : String) (e₁ e₂ : L.Entropy),
    L.SampleScalar (some seed) e₁ = L.SampleScalar (some seed) e₂

/-! ## A small library to run the entry points on concrete inputs -/

/-- A stand-in for the imported packages: scalars and points are numbers, a
private key is 40 bytes as `signer.NewKeyManager` requires, hashing and
signing always succeed, and a seed fixes the sampled scalar. -/
def sampleLib : Lib where
  Scalar := Nat
  Point := Nat
  KeyManager := List Nat
  HashFunc := Unit
  Entropy := Nat
  SampleScalar := fun seed e =>
    match seed with
    | none => e
    | some s => s.length
  SchnorrPkFromSk := fun sk => sk + 1
  ScalarToLittleEndianBytes := fun sk => [sk % 256, sk / 256 % 256]
  PointToLittleEndianBytes := fun pk => [pk % 256, pk / 256 % 256]
  NewKeyManager := fun b =>
    if b.length = 40 then .ok b else .error "invalid private key length"
  PubKeyBytes := fun km => km.reverse
  Sign := fun km msg _ e => .ok (e % 256 :: (km.take 1 ++ msg))
  Hash := fun tx chainId =>
    .ok [chainId % 256, tx.ApiKeyIndex, tx.PubKey.length, (tx.Nonce % 256).toNat]
  GetL1SignatureBody := fun tx => "change pubkey " ++ Nat.repr tx.ApiKeyIndex
  floatOverflow := fun _ => minInt64

/-- Forty bytes in hex: `0x01` repeated. -/
def hex40 : String := String.mk (List.replicate 40 ['0', '1']).flatten

/-- A parameter object with numbers in its numeric properties. -/
def sampleParamsOf (newPubkey newPrivkey : String) (apiKeyIndex : Int) : JSValue :=
  .object [("newPubkey", .string newPubkey), ("newPrivkey", .string newPrivkey),
    ("nonce", .number 5), ("expiredAt", .number 0), ("accountIndex", .number 3),
    ("apiKeyIndex", .number apiKeyIndex), ("chainId", .number 1)]

/-- A well-formed parameter object with the given `apiKeyIndex`. -/
def sampleParams (apiKeyIndex : Int) : JSValue :=
  sampleParamsOf hex40 ("0x" ++ hex40) apiKeyIndex

/-! ## Lemmas on the standard-library functions -/

theorem TrimPrefix_0x_append (h : String) : TrimPrefix ("0x" ++ h) "0x" = h := by
  simp [TrimPrefix, HasPrefix, String.data_append]

theorem TrimPrefix_of_not_HasPrefix (h : String) (hp : HasPrefix h "0x" = false) :
    TrimPrefix h "0x" = h := by
  simp [TrimPrefix, hp]

theorem TrimPrefix_withOptional0x (b : Bool) (h : String)
    (hp : HasPrefix h "0x" = false) :
    TrimPrefix (withOptional0x b h) "0x" = h := by
  cases b
  · simpa [withOptional0x] using TrimPrefix_of_not_HasPrefix h hp
  · simpa [withOptional0x] using TrimPrefix_0x_append h

/-! ## Lemmas on `signChangePubKey` -/

/-- Once the seven properties have been read without a panic, the call is
the body applied to the values read. -/
theorem signChangePubKey_of_reads (L : Lib) (held : KeyState L) (e : L.Entropy)
    (params : JSValue) (rest : List JSValue) (pub priv : JSValue)
    (nonce expiredAt accountIndex apiKeyIndex chainId : Int)
    (hpub : params.Get "newPubkey" = .ok pub)
    (hpriv : params.Get "newPrivkey" = .ok priv)
    (hnonce : params.Get "nonce" = .ok (.number nonce))
    (hexp : params.Get "expiredAt" = .ok (.number expiredAt))
    (hacc : params.Get "accountIndex" = .ok (.number accountIndex))
    (hapi : params.Get "apiKeyIndex" = .ok (.number apiKeyIndex))
    (hchain : params.Get "chainId" = .ok (.number chainId)) :
    signChangePubKey L held e (params :: rest) =
      .ok (signChangePubKeyBody L held e pub.StringOf priv.StringOf
        (floatToInt64 L.floatOverflow nonce) (floatToInt64 L.floatOverflow expiredAt)
        (floatToInt64 L.floatOverflow accountIndex)
        (toUint8 (floatToInt64 L.floatOverflow apiKeyIndex))
        (toUint32 (floatToInt64 L.floatOverflow chainId))) := by
  simp only [signChangePubKey, readParams, hpub, hpriv, hnonce, hexp, hacc, hapi, hchain,
    JSValue.FloatInt64, JSValue.Int]
  rfl

/-- Reading any property of a value succeeds exactly when reading another
one does: `Value.Get` panics on the receiver, not on the property. -/
theorem Get_ok_of_Get_ok (params : JSValue) (k k' : String) (v : JSValue)
    (h : params.Get k = .ok v) : ∃ v', params.Get k' = .ok v' := by
  cases params <;> simp [JSValue.Get] at h ⊢

/-- The body never touches the held key manager. -/
theorem signChangePubKeyBody_snd (L : Lib) (held : KeyState L) (e : L.Entropy)
    (pubHex privHex : String) (nonce expiredAt accountIndex : Int)
    (apiKeyIndex chainId : Nat) :
    (signChangePubKeyBody L held e pubHex privHex nonce expiredAt accountIndex
      apiKeyIndex chainId).2 = held := by
  unfold signChangePubKeyBody
  simp only []
  split
  · rfl
  · split
    · rfl
    · split
      · rfl
      · split
        · rfl
        · split
          · rfl
          · split <;> rfl

/-- The record the body returns does not depend on the held key manager. -/
theorem signChangePubKeyBody_fst (L : Lib) (held held' : KeyState L) (e : L.Entropy)
    (pubHex privHex : String) (nonce expiredAt accountIndex : Int)
    (apiKeyIndex chainId : Nat) :
    (signChangePubKeyBody L held e pubHex privHex nonce expiredAt accountIndex
      apiKeyIndex chainId).1 =
    (signChangePubKeyBody L held' e pubHex privHex nonce expiredAt accountIndex
      apiKeyIndex chainId).1 := by
  unfold signChangePubKeyBody
  simp only []
  split
  · rfl
  · split
    · rfl
    · split
      · rfl
      · split
        · rfl
        · split
          · rfl
          · split <;> rfl

/-- The body returns a transaction exactly when every step succeeds, and an
error record otherwise. -/
theorem signChangePubKeyBody_cases (L : Lib) (held : KeyState L) (e : L.Entropy)
    (pubHex privHex : String) (nonce expiredAt accountIndex : Int)
    (apiKeyIndex chainId : Nat) :
    let r := (signChangePubKeyBody L held e pubHex privHex nonce expiredAt
      accountIndex apiKeyIndex chainId).1
    (r.hasTransaction = true ↔
      StepsSucceed L e pubHex privHex nonce expiredAt accountIndex apiKeyIndex chainId) ∧
    (r.isError = true ↔ r.hasTransaction = false) := by
  unfold signChangePubKeyBody StepsSucceed
  simp only []
  cases h1 : DecodeString (TrimPrefix pubHex "0x") with
  | error err => simp [Result.hasTransaction, Result.isError, Result.field, List.lookup]
  | ok pubBytes =>
    by_cases hl : pubBytes.length = 40
    · cases h2 : DecodeString (TrimPrefix privHex "0x") with
      | error err =>
        simp [hl, Result.hasTransaction, Result.isError, Result.field, List.lookup]
      | ok privBytes =>
        cases h3 : L.NewKeyManager privBytes with
        | error err =>
          simp [hl, h3, Result.hasTransaction, Result.isError, Result.field, List.lookup]
        | ok km =>
          cases h4 : L.Hash ⟨accountIndex, apiKeyIndex, nonce, pubBytes, expiredAt⟩ chainId with
          | error err =>
            simp [hl, h3, h4, Result.hasTransaction, Result.isError, Result.field,
              List.lookup]
          | ok hashed =>
            cases h5 : L.Sign km hashed none e with
            | error err =>
              simp [hl, h3, h4, h5, Result.hasTransaction, Result.isError, Result.field,
                List.lookup]
            | ok sig =>
              simp [hl, h3, h4, h5, Result.hasTransaction, Result.isError, Result.field,
                List.lookup]
    · simp [hl, Result.hasTransaction, Result.isError, Result.field, List.lookup]

/-! ## C1: the 40-byte check on `newPubkey` -/

/-- C1, as amended: when the parameter object holds numbers under `nonce`,
`expiredAt`, `accountIndex`, `apiKeyIndex` and `chainId`, and its `newPubkey`
string, one leading `0x` removed, hex-decodes to `n` bytes with `n ≠ 40`, the
call returns the record whose only entry is the error message
`Public key must be 40 bytes, got <n>` and leaves the held key manager as it
was, whatever `newPrivkey` and the library functions are. -/
theorem signChangePubKey_pubkey_length (L : Lib) (held : KeyState L) (e : L.Entropy)
    (params : JSValue) (rest : List JSValue) (pub : JSValue) (bs : List Nat)
    (hnum : NumericFields params)
    (hpub : params.Get "newPubkey" = .ok pub)
    (hdec : DecodeString (TrimPrefix pub.StringOf "0x") = .ok bs)
    (hlen : bs.length ≠ 40) :
    signChangePubKey L held e (params :: rest) =
      .ok ([("error", .str ("Public key must be 40 bytes, got " ++ Nat.repr bs.length))],
        held) := by
  obtain ⟨priv, hpriv⟩ := Get_ok_of_Get_ok params "newPubkey" "newPrivkey" pub hpub
  obtain ⟨n1, h1⟩ := hnum "nonce" (by simp [numericKeys])
  obtain ⟨n2, h2⟩ := hnum "expiredAt" (by simp [numericKeys])
  obtain ⟨n3, h3⟩ := hnum "accountIndex" (by simp [numericKeys])
  obtain ⟨n4, h4⟩ := hnum "apiKeyIndex" (by simp [numericKeys])
  obtain ⟨n5, h5⟩ := hnum "chainId" (by simp [numericKeys])
  rw [signChangePubKey_of_reads L held e params rest pub priv n1 n2 n3 n4 n5
    hpub hpriv h1 h2 h3 h4 h5]
  simp [signChangePubKeyBody, hdec, hlen]

/-- C1, witness: a one-byte `newPubkey` next to a `newPrivkey` that is not
hex at all. -/
theorem signChangePubKey_pubkey_length_witness :
    signChangePubKey sampleLib none (7 : Nat)
      [.object [("newPubkey", .string "0x00"), ("newPrivkey", .string "zz"),
        ("nonce", .number 5), ("expiredAt", .number 0), ("accountIndex", .number 3),
        ("apiKeyIndex", .number 1), ("chainId", .number 1)]] =
      .ok ([("error", .str "Public key must be 40 bytes, got 1")], none) :=
  signChangePubKey_pubkey_length sampleLib none (7 : Nat) _ [] (.string "0x00") [0]
    (by
      intro k hk
      simp only [numericKeys, List.mem_cons, List.mem_singleton, List.not_mem_nil,
        or_false] at hk
      rcases hk with rfl | rfl | rfl | rfl | rfl
      · exact ⟨5, rfl⟩
      · exact ⟨0, rfl⟩
      · exact ⟨3, rfl⟩
      · exact ⟨1, rfl⟩
      · exact ⟨1, rfl⟩)
    rfl rfl (by decide)

/-- C1, counterexample to the claim as stated: `newPubkey` decodes to one
byte, yet with `nonce` given as the string `"5"` the call panics in
`Value.Float` before the length is looked at; no error record is returned. -/
theorem signChangePubKey_pubkey_length_counterexample :
    DecodeString (TrimPrefix "0x00" "0x") = .ok [0] ∧
    signChangePubKey sampleLib none (7 : Nat)
      [.object [("newPubkey", .string "0x00"), ("newPrivkey", .string "zz"),
        ("nonce", .string "5"), ("expiredAt", .number 0), ("accountIndex", .number 3),
        ("apiKeyIndex", .number 1), ("chainId", .number 1)]] =
      .error ⟨"Value.Float", .TypeString⟩ :=
  ⟨rfl, rfl⟩

/-! ## C2: `setCurrentKey` changes nothing when it fails -/

/-- The call `setCurrentKey` always returns; it has no panicking accessor. -/
theorem setCurrentKey_returns (L : Lib) (held : KeyState L) (e : L.Entropy)
    (args : List JSValue) :
    ∃ r held', setCurrentKey L held e args = .ok (r, held') := by
  unfold setCurrentKey
  cases args with
  | nil => exact ⟨_, _, rfl⟩
  | cons arg0 rest =>
    simp only []
    cases hd : DecodeString (TrimPrefix arg0.StringOf "0x") with
    | error err => exact ⟨_, _, rfl⟩
    | ok bytes =>
      cases hk : L.NewKeyManager bytes with
      | error err => simp only [hk]; exact ⟨_, _, rfl⟩
      | ok km => simp only [hk]; exact ⟨_, _, rfl⟩

/-- C2: whenever `setCurrentKey` returns an error record (no argument,
invalid hex, or `NewKeyManager` rejecting the bytes), the held key manager
after the call is the one held before it. -/
theorem setCurrentKey_atomic_on_failure (L : Lib) (held : KeyState L) (e : L.Entropy)
    (args : List JSValue) (r : Result) (held' : KeyState L)
    (h : setCurrentKey L held e args = .ok (r, held'))
    (herr : r.isError = true) : held' = held := by
  unfold setCurrentKey at h
  cases args with
  | nil =>
    simp only [Except.ok.injEq, Prod.mk.injEq] at h
    exact h.2.symm
  | cons arg0 rest =>
    simp only [] at h
    cases hd : DecodeString (TrimPrefix arg0.StringOf "0x") with
    | error err =>
      simp only [hd, Except.ok.injEq, Prod.mk.injEq] at h
      exact h.2.symm
    | ok bytes =>
      cases hk : L.NewKeyManager bytes with
      | error err =>
        simp only [hd, hk, Except.ok.injEq, Prod.mk.injEq] at h
        exact h.2.symm
      | ok km =>
        simp only [hd, hk, Except.ok.injEq, Prod.mk.injEq] at h
        rw [← h.1] at herr
        simp [Result.isError, Result.field, List.lookup] at herr

/-- C2, witness: a key of one byte where forty are expected is rejected and
the key manager held before is still held. -/
theorem setCurrentKey_atomic_on_failure_witness :
    ∃ r held', setCurrentKey sampleLib (some [1, 2]) (0 : Nat) [.string "0x00"] = .ok (r, held') ∧
      r.isError = true ∧ held' = some [1, 2] :=
  ⟨_, _, rfl, rfl,
    setCurrentKey_atomic_on_failure sampleLib (some [1, 2]) (0 : Nat) [.string "0x00"] _ _ rfl rfl⟩

/-! ## C3: signing when no key has been set -/

/-- C3, as amended: with no key set, a call whose parameter object can be
read returns a record and leaves the key manager empty; the record carries
a signed transaction exactly when hex decoding of both keys, the 40-byte
check, key-manager construction from `newPrivkey`, hashing and signing all
succeed, and it is an error record exactly when it carries no transaction.
The missing held key is not among the causes of an error. -/
theorem signChangePubKey_without_key (L : Lib) (e : L.Entropy)
    (params : JSValue) (rest : List JSValue) (a : ChangePubKeyArgs)
    (hread : readParams L.floatOverflow params = .ok a) :
    ∃ r, signChangePubKey L (initialState L) e (params :: rest) = .ok (r, initialState L) ∧
      (r.hasTransaction = true ↔
        StepsSucceed L e a.newPubkeyHex a.newPrivkeyHex a.nonce a.expiredAt
          a.accountIndex a.apiKeyIndex a.chainId) ∧
      (r.isError = true ↔ r.hasTransaction = false) := by
  refine ⟨(signChangePubKeyBody L (initialState L) e a.newPubkeyHex a.newPrivkeyHex
    a.nonce a.expiredAt a.accountIndex a.apiKeyIndex a.chainId).1, ?_, ?_⟩
  · simp only [signChangePubKey, hread]
    congr 1
    exact Prod.ext rfl (signChangePubKeyBody_snd L (initialState L) e _ _ _ _ _ _ _)
  · exact signChangePubKeyBody_cases L (initialState L) e _ _ _ _ _ _ _

/-- C3, witness: the well-formed parameter object, read in the empty state. -/
theorem signChangePubKey_without_key_witness :
    ∃ r, signChangePubKey sampleLib (initialState sampleLib) (7 : Nat)
        [sampleParams 1] = .ok (r, initialState sampleLib) ∧
      (r.hasTransaction = true ↔
        StepsSucceed sampleLib (7 : Nat) hex40 ("0x" ++ hex40) 5 0 3 1 1) ∧
      (r.isError = true ↔ r.hasTransaction = false) :=
  signChangePubKey_without_key sampleLib (7 : Nat) (sampleParams 1) []
    ⟨hex40, "0x" ++ hex40, 5, 0, 3, 1, 1⟩ rfl

/-- C3, counterexample to the claim as stated: in the initial, empty state
a call with well-formed parameters returns a signed transaction, not an
error record. -/
theorem signChangePubKey_without_key_counterexample :
    ∃ r, signChangePubKey sampleLib (initialState sampleLib) (7 : Nat)
        [sampleParams 1] = .ok (r, none) ∧
      r.isError = false ∧ r.hasTransaction = true :=
  ⟨_, rfl, rfl, rfl⟩

/-! ## C4: `apiKeyIndex` is converted, not validated -/

theorem Except_ok_bind {ε α β : Type} (x : α) (f : α → Except ε β) :
    (Except.ok x >>= f) = f x := rfl

theorem floatToInt64_of_fits (ovf : Int → Int) (k : Int)
    (hlo : minInt64 ≤ k) (hhi : k ≤ maxInt64) : floatToInt64 ovf k = k := by
  simp [floatToInt64, hlo, hhi]

/-- C4, as amended: `apiKeyIndex` is converted to `uint8` without a range
check, so only its residue modulo 256 reaches the transaction: two parameter
objects that differ in nothing but `apiKeyIndex`, holding there two integers
of the `int64` range with the same residue modulo 256 (such as `k` and
`k + 256`), give the same outcome, be it a signed transaction or an error. -/
theorem signChangePubKey_apiKeyIndex_mod_256 (L : Lib) (held : KeyState L)
    (e : L.Entropy) (params params' : JSValue) (rest rest' : List JSValue) (k k' : Int)
    (hk : minInt64 ≤ k ∧ k ≤ maxInt64) (hk' : minInt64 ≤ k' ∧ k' ≤ maxInt64)
    (hmod : k' % 256 = k % 256)
    (hsame : ∀ key, key ≠ "apiKeyIndex" → params'.Get key = params.Get key)
    (hapi : params.Get "apiKeyIndex" = .ok (.number k))
    (hapi' : params'.Get "apiKeyIndex" = .ok (.number k')) :
    signChangePubKey L held e (params' :: rest') =
      signChangePubKey L held e (params :: rest) := by
  have hread : readParams L.floatOverflow params' = readParams L.floatOverflow params := by
    simp only [readParams, hsame "newPubkey" (by decide), hsame "newPrivkey" (by decide),
      hsame "nonce" (by decide), hsame "expiredAt" (by decide),
      hsame "accountIndex" (by decide), hsame "chainId" (by decide), hapi, hapi',
      Except_ok_bind, JSValue.Int, floatToInt64_of_fits _ k hk.1 hk.2,
      floatToInt64_of_fits _ k' hk'.1 hk'.2, toUint8, hmod]
  simp only [signChangePubKey, hread]

/-- C4, witness: `apiKeyIndex` 257 against `apiKeyIndex` 1. -/
theorem signChangePubKey_apiKeyIndex_mod_256_witness :
    signChangePubKey sampleLib none (7 : Nat) [sampleParams 257] =
      signChangePubKey sampleLib none (7 : Nat) [sampleParams 1] :=
  signChangePubKey_apiKeyIndex_mod_256 sampleLib none (7 : Nat) (sampleParams 1)
    (sampleParams 257) [] [] 1 257 (by decide) (by decide) (by decide)
    (by
      intro key hkey
      have hne : (key == "apiKeyIndex") = false := by simpa using hkey
      simp only [sampleParams, sampleParamsOf, JSValue.Get, List.lookup, hne])
    rfl rfl

/-- C4, counterexample to the claim as stated: `apiKeyIndex` 257 lies
outside 0..255, yet the call succeeds, with `ApiKeyIndex` 1 in the
transaction, and returns the very record of the call with `apiKeyIndex` 1. -/
theorem signChangePubKey_apiKeyIndex_counterexample :
    ∃ r tx, signChangePubKey sampleLib none (7 : Nat) [sampleParams 257] = .ok (r, none) ∧
      r.isError = false ∧
      r.field "transaction" = some (.map tx) ∧
      tx.lookup "ApiKeyIndex" = some (.int 1) ∧
      signChangePubKey sampleLib none (7 : Nat) [sampleParams 1] = .ok (r, none) :=
  ⟨_, _, rfl, rfl, rfl, rfl, rfl⟩

/-! ## The held key manager across one call -/

/-- A returning `signChangePubKey` leaves the held key manager it found. -/
theorem signChangePubKey_held (L : Lib) (held held' : KeyState L) (e : L.Entropy)
    (args : List JSValue) (r : Result)
    (h : signChangePubKey L held e args = .ok (r, held')) : held' = held := by
  cases args with
  | nil =>
    simp only [signChangePubKey, Except.ok.injEq, Prod.mk.injEq] at h
    exact h.2.symm
  | cons params rest =>
    cases hread : readParams L.floatOverflow params with
    | error verr => simp [signChangePubKey, hread] at h
    | ok a =>
      simp only [signChangePubKey, hread, Except.ok.injEq] at h
      have hsnd := signChangePubKeyBody_snd L held e a.newPubkeyHex a.newPrivkeyHex
        a.nonce a.expiredAt a.accountIndex a.apiKeyIndex a.chainId
      rw [h] at hsnd
      exact hsnd

/-- What a returning `setCurrentKey` did: it returned an error record and
kept the held key manager, or it decoded the argument, built a key manager
from the bytes, returned the success record and holds that key manager. -/
theorem setCurrentKey_cases (L : Lib) (held held' : KeyState L) (e : L.Entropy)
    (args : List JSValue) (r : Result)
    (h : setCurrentKey L held e args = .ok (r, held')) :
    (r.isError = true ∧ held' = held) ∨
    ∃ arg0 rest privateKey km, args = arg0 :: rest ∧
      DecodeString (TrimPrefix arg0.StringOf "0x") = .ok privateKey ∧
      L.NewKeyManager privateKey = .ok km ∧ held' = some km ∧
      r = [("success", .bool true),
           ("publicKey", .str (EncodeToString (L.PubKeyBytes km))),
           ("error", .nil)] := by
  unfold setCurrentKey at h
  cases args with
  | nil =>
    simp only [Except.ok.injEq, Prod.mk.injEq] at h
    exact Or.inl ⟨by rw [← h.1]; rfl, h.2.symm⟩
  | cons arg0 rest =>
    simp only [] at h
    cases hd : DecodeString (TrimPrefix arg0.StringOf "0x") with
    | error err =>
      simp only [hd, Except.ok.injEq, Prod.mk.injEq] at h
      exact Or.inl ⟨by rw [← h.1]; rfl, h.2.symm⟩
    | ok bytes =>
      cases hk : L.NewKeyManager bytes with
      | error err =>
        simp only [hd, hk, Except.ok.injEq, Prod.mk.injEq] at h
        exact Or.inl ⟨by rw [← h.1]; rfl, h.2.symm⟩
      | ok km =>
        simp only [hd, hk, Except.ok.injEq, Prod.mk.injEq] at h
        exact Or.inr ⟨arg0, rest, bytes, km, rfl, hd, hk, h.2.symm, h.1.symm⟩

/-- A returning call of any of the four functions keeps a held key manager
held (possibly another one). -/
theorem Op_call_isSome (L : Lib) (op : Op) (held held' : KeyState L) (e : L.Entropy)
    (args : List JSValue) (r : Result) (hheld : held.isSome = true)
    (h : op.call L held e args = .ok (r, held')) : held'.isSome = true := by
  cases op with
  | generateApiKey =>
    simp only [Op.call, generateApiKey, Except.ok.injEq, Prod.mk.injEq] at h
    rw [← h.2]; exact hheld
  | setCurrentKey =>
    rcases setCurrentKey_cases L held held' e args r h with ⟨_, hk⟩ | ⟨_, _, _, km, _, _, _, hk, _⟩
    · rw [hk]; exact hheld
    · rw [hk]; rfl
  | signChangePubKey =>
    rw [signChangePubKey_held L held held' e args r h]; exact hheld
  | getDefaultKey =>
    simp only [Op.call, getDefaultKey] at h
    split at h <;>
      (simp only [Except.ok.injEq, Prod.mk.injEq] at h; rw [← h.2]; exact hheld)

/-- Lower-case hexadecimal digits only. -/
theorem hexDigit_mem (n : Nat) : hexDigit n ∈ "0123456789abcdef".data := by
  unfold hexDigit
  have hlt : n % 16 < 16 := Nat.mod_lt _ (by decide)
  generalize n % 16 = m at hlt
  interval_cases m <;> decide

/-! ## C10: `signChangePubKey` and the held key manager -/

/-- C10: for every argument list, entropy and two held key managers (empty
or not), `signChangePubKey` panics or returns alike and returns the same
record, and a call that returns leaves the held key manager it found. -/
theorem signChangePubKey_frame (L : Lib) (held₁ held₂ : KeyState L) (e : L.Entropy)
    (args : List JSValue) :
    (signChangePubKey L held₁ e args).map Prod.fst =
      (signChangePubKey L held₂ e args).map Prod.fst ∧
    ∀ r held', signChangePubKey L held₁ e args = .ok (r, held') → held' = held₁ := by
  refine ⟨?_, fun r held' h => signChangePubKey_held L held₁ held' e args r h⟩
  cases args with
  | nil => rfl
  | cons params rest =>
    cases hread : readParams L.floatOverflow params with
    | error verr => simp [signChangePubKey, hread, Except.map]
    | ok a =>
      simp only [signChangePubKey, hread, Except.map]
      congr 1
      exact signChangePubKeyBody_fst L held₁ held₂ e _ _ _ _ _ _ _

/-- C10, on a concrete run: the same signed transaction with no key held
and with a key held, which stays held. -/
theorem signChangePubKey_frame_witness :
    (signChangePubKey sampleLib none (7 : Nat) [sampleParams 1]).map Prod.fst =
      (signChangePubKey sampleLib (some [9]) (7 : Nat) [sampleParams 1]).map Prod.fst ∧
    ∀ r held', signChangePubKey sampleLib none (7 : Nat) [sampleParams 1] = .ok (r, held') →
      held' = none :=
  signChangePubKey_frame sampleLib none (some [9]) (7 : Nat) [sampleParams 1]

/-! ## C5: `getDefaultKey` is a function of its seed -/

/-- C5: with a seeded sampler that is a function of the seed, two calls of
`getDefaultKey` on the same arguments return the same record (the same
`privateKey` and `publicKey` strings), whatever key manager is held at each
call and whatever randomness is available to each; neither call panics nor
changes the held key manager. -/
theorem getDefaultKey_deterministic (L : Lib) (hdet : SeededSamplingDeterministic L)
    (held₁ held₂ : KeyState L) (e₁ e₂ : L.Entropy) (args : List JSValue) :
    ∃ r, getDefaultKey L held₁ e₁ args = .ok (r, held₁) ∧
      getDefaultKey L held₂ e₂ args = .ok (r, held₂) := by
  unfold getDefaultKey
  split
  · next seed rest => exact ⟨_, rfl, by rw [hdet seed e₂ e₁]⟩
  · exact ⟨_, rfl, rfl⟩

/-- C5, witness: the seed `test-seed-1` fed twice, first with no key held,
then with a key held and other randomness. -/
theorem getDefaultKey_deterministic_witness :
    ∃ r, getDefaultKey sampleLib none (3 : Nat) [.string "test-seed-1"] = .ok (r, none) ∧
      getDefaultKey sampleLib (some [9]) (4 : Nat) [.string "test-seed-1"] =
        .ok (r, some [9]) :=
  getDefaultKey_deterministic sampleLib (fun _ _ _ => rfl) none (some [9]) (3 : Nat)
    (4 : Nat) [.string "test-seed-1"]

/-! ## C6: the `0x` prefix is optional -/

/-- Reading a parameter object that differs from another one in its two key
strings only: the same panic, or the same values with the two strings
replaced. -/
theorem readParams_key_strings (ovf : Int → Int) (params params' : JSValue)
    (w₁ w₂ v₁ v₂ : JSValue)
    (hsame : ∀ key, key ≠ "newPubkey" → key ≠ "newPrivkey" →
      params'.Get key = params.Get key)
    (hw₁ : params.Get "newPubkey" = .ok w₁) (hw₂ : params.Get "newPrivkey" = .ok w₂)
    (hv₁ : params'.Get "newPubkey" = .ok v₁) (hv₂ : params'.Get "newPrivkey" = .ok v₂) :
    readParams ovf params' =
      (fun a => { a with newPubkeyHex := v₁.StringOf, newPrivkeyHex := v₂.StringOf }) <$>
        readParams ovf params := by
  simp only [readParams, hsame "nonce" (by decide) (by decide),
    hsame "expiredAt" (by decide) (by decide),
    hsame "accountIndex" (by decide) (by decide),
    hsame "apiKeyIndex" (by decide) (by decide),
    hsame "chainId" (by decide) (by decide), hw₁, hw₂, hv₁, hv₂,
    Except_ok_bind, map_bind, map_pure]

/-- C6: for a string `h` that does not begin with `0x`, `setCurrentKey` on
`"0x" + h` has the outcome it has on `h` (same record, same held key
manager); and for `newPubkey` and `newPrivkey` strings that do not begin
with `0x`, `signChangePubKey` has the same outcome whether each of them is
passed with or without one leading `0x`, the other properties being equal. -/
theorem hex_prefix_optional (L : Lib) (held : KeyState L) (e : L.Entropy)
    (h pub priv : String) (with0xPub with0xPriv : Bool)
    (params params' : JSValue) (rest : List JSValue)
    (hh : HasPrefix h "0x" = false)
    (hpubPre : HasPrefix pub "0x" = false)
    (hprivPre : HasPrefix priv "0x" = false)
    (hsame : ∀ key, key ≠ "newPubkey" → key ≠ "newPrivkey" →
      params'.Get key = params.Get key)
    (hpub : params.Get "newPubkey" = .ok (.string pub))
    (hpriv : params.Get "newPrivkey" = .ok (.string priv))
    (hpub' : params'.Get "newPubkey" = .ok (.string (withOptional0x with0xPub pub)))
    (hpriv' : params'.Get "newPrivkey" = .ok (.string (withOptional0x with0xPriv priv))) :
    setCurrentKey L held e (.string ("0x" ++ h) :: rest) =
      setCurrentKey L held e (.string h :: rest) ∧
    signChangePubKey L held e (params' :: rest) =
      signChangePubKey L held e (params :: rest) := by
  constructor
  · simp only [setCurrentKey, JSValue.StringOf, TrimPrefix_0x_append,
      TrimPrefix_of_not_HasPrefix h hh]
  · have h' := readParams_key_strings L.floatOverflow params params' _ _ _ _
      hsame hpub hpriv hpub' hpriv'
    have h0 := readParams_key_strings L.floatOverflow params params _ _ _ _
      (fun _ _ _ => rfl) hpub hpriv hpub hpriv
    cases hread : readParams L.floatOverflow params with
    | error verr =>
      rw [hread] at h'
      simp only [signChangePubKey, hread, h']
      rfl
    | ok a =>
      rw [hread] at h' h0
      have ha : a = { a with newPubkeyHex := pub, newPrivkeyHex := priv } := by
        have := h0
        simp only [JSValue.StringOf] at this
        exact Except.ok.inj this
      have hp : a.newPubkeyHex = pub := by rw [ha]
      have hq : a.newPrivkeyHex = priv := by rw [ha]
      simp only [signChangePubKey, hread, h']
      show Except.ok _ = Except.ok _
      congr 1
      simp only [signChangePubKeyBody, JSValue.StringOf, hp, hq,
        TrimPrefix_withOptional0x _ _ hpubPre, TrimPrefix_withOptional0x _ _ hprivPre,
        TrimPrefix_of_not_HasPrefix _ hpubPre, TrimPrefix_of_not_HasPrefix _ hprivPre]

/-- C6, witness: the forty-byte keys, `newPubkey` with `0x` added and
`newPrivkey` with its `0x` removed. -/
theorem hex_prefix_optional_witness :
    setCurrentKey sampleLib none (0 : Nat) [.string ("0x" ++ hex40)] =
      setCurrentKey sampleLib none (0 : Nat) [.string hex40] ∧
    signChangePubKey sampleLib none (0 : Nat) [sampleParamsOf ("0x" ++ hex40) hex40 1] =
      signChangePubKey sampleLib none (0 : Nat) [sampleParamsOf hex40 hex40 1] :=
  hex_prefix_optional sampleLib none (0 : Nat) hex40 hex40 hex40 true false
    (sampleParamsOf hex40 hex40 1) (sampleParamsOf ("0x" ++ hex40) hex40 1) []
    (by decide) (by decide) (by decide)
    (by
      intro key h₁ h₂
      have e₁ : (key == "newPubkey") = false := by simpa using h₁
      have e₂ : (key == "newPrivkey") = false := by simpa using h₂
      simp only [sampleParamsOf, JSValue.Get, List.lookup, e₁, e₂])
    rfl rfl rfl rfl

/-! ## C7: the record of a successful `signChangePubKey` -/

/-- The encoder agrees with the test vectors of RFC 4648, section 10. -/
theorem base64StdEncodeToString_vectors :
    base64StdEncodeToString (goBytes "") = "" ∧
    base64StdEncodeToString (goBytes "f") = "Zg==" ∧
    base64StdEncodeToString (goBytes "fo") = "Zm8=" ∧
    base64StdEncodeToString (goBytes "foo") = "Zm9v" ∧
    base64StdEncodeToString (goBytes "foob") = "Zm9vYg==" ∧
    base64StdEncodeToString (goBytes "fooba") = "Zm9vYmE=" ∧
    base64StdEncodeToString (goBytes "foobar") = "Zm9vYmFy" := by
  refine ⟨?_, ?_, ?_, ?_, ?_, ?_, ?_⟩ <;> decide

/-- C7: when the parameter object is read as `a`, both keys hex-decode, the
public key has 40 bytes, `NewKeyManager` accepts the private-key bytes, and
hashing and signing succeed, the call returns a record with `error` nil
whose `transaction` holds `Sig`, the base64 of the signature the new key
manager made over `Hash(tx, chainId)` with no hash function passed, `PubKey`,
the base64 of the decoded public-key bytes, the four numbers of the hashed
transaction, and `MessageToSign`, equal to the top-level `messageToSign`,
both the L1 signature body of that transaction; the held key manager is
unchanged. -/
theorem signChangePubKey_success_shape (L : Lib) (held : KeyState L) (e : L.Entropy)
    (params : JSValue) (rest : List JSValue) (a : ChangePubKeyArgs)
    (pubBytes privBytes : List Nat) (km : L.KeyManager) (hashed sig : List Nat)
    (hread : readParams L.floatOverflow params = .ok a)
    (hpub : DecodeString (TrimPrefix a.newPubkeyHex "0x") = .ok pubBytes)
    (hlen : pubBytes.length = 40)
    (hpriv : DecodeString (TrimPrefix a.newPrivkeyHex "0x") = .ok privBytes)
    (hkm : L.NewKeyManager privBytes = .ok km)
    (hhash : L.Hash ⟨a.accountIndex, a.apiKeyIndex, a.nonce, pubBytes, a.expiredAt⟩
      a.chainId = .ok hashed)
    (hsign : L.Sign km hashed none e = .ok sig) :
    ∃ r tx, signChangePubKey L held e (params :: rest) = .ok (r, held) ∧
      r.field "error" = some .nil ∧
      r.field "transaction" = some (.map tx) ∧
      tx.lookup "Sig" = some (.str (base64StdEncodeToString sig)) ∧
      tx.lookup "PubKey" = some (.str (base64StdEncodeToString pubBytes)) ∧
      tx.lookup "AccountIndex" = some (.int a.accountIndex) ∧
      tx.lookup "ApiKeyIndex" = some (.int a.apiKeyIndex) ∧
      tx.lookup "Nonce" = some (.int a.nonce) ∧
      tx.lookup "ExpiredAt" = some (.int a.expiredAt) ∧
      tx.lookup "MessageToSign" = some (.str (L.GetL1SignatureBody
        ⟨a.accountIndex, a.apiKeyIndex, a.nonce, pubBytes, a.expiredAt⟩)) ∧
      r.field "messageToSign" = some (.str (L.GetL1SignatureBody
        ⟨a.accountIndex, a.apiKeyIndex, a.nonce, pubBytes, a.expiredAt⟩)) := by
  have hcall : signChangePubKey L held e (params :: rest) = .ok
      ([("transaction", .map
          [("Sig", .str (base64StdEncodeToString sig)),
           ("AccountIndex", .int a.accountIndex),
           ("ApiKeyIndex", .int a.apiKeyIndex),
           ("Nonce", .int a.nonce),
           ("PubKey", .str (base64StdEncodeToString pubBytes)),
           ("ExpiredAt", .int a.expiredAt),
           ("MessageToSign", .str (L.GetL1SignatureBody
              ⟨a.accountIndex, a.apiKeyIndex, a.nonce, pubBytes, a.expiredAt⟩))]),
        ("messageToSign", .str (L.GetL1SignatureBody
          ⟨a.accountIndex, a.apiKeyIndex, a.nonce, pubBytes, a.expiredAt⟩)),
        ("error", .nil)], held) := by
    simp [signChangePubKey, hread, signChangePubKeyBody, hpub, hlen, hpriv, hkm,
      hhash, hsign]
  refine ⟨_,
    [("Sig", .str (base64StdEncodeToString sig)),
     ("AccountIndex", .int a.accountIndex),
     ("ApiKeyIndex", .int a.apiKeyIndex),
     ("Nonce", .int a.nonce),
     ("PubKey", .str (base64StdEncodeToString pubBytes)),
     ("ExpiredAt", .int a.expiredAt),
     ("MessageToSign", .str (L.GetL1SignatureBody
        ⟨a.accountIndex, a.apiKeyIndex, a.nonce, pubBytes, a.expiredAt⟩))], hcall, ?_⟩
  simp [Result.field, List.lookup]

/-- C7, witness: the well-formed parameter object with `newPubkey` and
`newPrivkey` forty bytes of `0x01`, nonce 5, account 3, key index 1,
chain 1. -/
theorem signChangePubKey_success_shape_witness :
    ∃ r tx, signChangePubKey sampleLib (some [2]) (7 : Nat) [sampleParams 1] =
        .ok (r, some [2]) ∧
      r.field "error" = some .nil ∧
      r.field "transaction" = some (.map tx) ∧
      tx.lookup "Sig" = some (.str (base64StdEncodeToString [7, 1, 1, 1, 40, 5])) ∧
      tx.lookup "PubKey" = some (.str (base64StdEncodeToString (List.replicate 40 1))) ∧
      tx.lookup "AccountIndex" = some (.int 3) ∧
      tx.lookup "ApiKeyIndex" = some (.int 1) ∧
      tx.lookup "Nonce" = some (.int 5) ∧
      tx.lookup "ExpiredAt" = some (.int 0) ∧
      tx.lookup "MessageToSign" = some (.str "change pubkey 1") ∧
      r.field "messageToSign" = some (.str "change pubkey 1") :=
  signChangePubKey_success_shape sampleLib (some [2]) (7 : Nat) (sampleParams 1) []
    ⟨hex40, "0x" ++ hex40, 5, 0, 3, 1, 1⟩ (List.replicate 40 1) (List.replicate 40 1)
    (List.replicate 40 1) [1, 1, 40, 5] [7, 1, 1, 1, 40, 5] rfl rfl rfl rfl rfl rfl rfl

/-! ## C8: the key-manager state machine -/

/-- C8: the held key manager starts empty; a `setCurrentKey` that returns a
record which is not an error record has decoded its argument, built a key
manager from the bytes, returned `success = true` with `publicKey` the hex
of that key manager's public-key bytes, and holds exactly that key manager;
a returning call of any of the four exported functions keeps a held key
manager held; so no sequence of calls leads from holding back to empty. -/
theorem key_manager_state_machine (L : Lib) :
    initialState L = none ∧
    (∀ (held held' : KeyState L) (e : L.Entropy) (args : List JSValue) (r : Result),
      setCurrentKey L held e args = .ok (r, held') → r.isError = false →
      ∃ arg0 rest privateKey km, args = arg0 :: rest ∧
        DecodeString (TrimPrefix arg0.StringOf "0x") = .ok privateKey ∧
        L.NewKeyManager privateKey = .ok km ∧ held' = some km ∧
        r = [("success", .bool true),
             ("publicKey", .str (EncodeToString (L.PubKeyBytes km))),
             ("error", .nil)]) ∧
    (∀ (arg0 : JSValue) (rest : List JSValue) (held : KeyState L) (e : L.Entropy)
      (privateKey : List Nat) (km : L.KeyManager),
      DecodeString (TrimPrefix arg0.StringOf "0x") = .ok privateKey →
      L.NewKeyManager privateKey = .ok km →
      setCurrentKey L held e (arg0 :: rest) = .ok
        ([("success", .bool true),
          ("publicKey", .str (EncodeToString (L.PubKeyBytes km))),
          ("error", .nil)], some km)) ∧
    (∀ (op : Op) (held held' : KeyState L) (e : L.Entropy) (args : List JSValue)
      (r : Result), held.isSome = true → op.call L held e args = .ok (r, held') →
      held'.isSome = true) ∧
    (∀ (calls : List (Call L)) (held : KeyState L), held.isSome = true →
      (runCalls L held calls).isSome = true) := by
  refine ⟨rfl, ?_, ?_, ?_, ?_⟩
  · intro held held' e args r h hne
    rcases setCurrentKey_cases L held held' e args r h with ⟨herr, _⟩ | hok
    · rw [herr] at hne; exact absurd hne (by decide)
    · exact hok
  · intro arg0 rest held e privateKey km hd hk
    simp only [setCurrentKey, hd, hk]
  · intro op held held' e args r hheld h
    exact Op_call_isSome L op held held' e args r hheld h
  · intro calls
    induction calls with
    | nil => intro held hheld; exact hheld
    | cons c cs ih =>
      intro held hheld
      simp only [runCalls]
      cases hc : c.op.call L held c.e c.args with
      | error verr => exact hheld
      | ok res =>
        obtain ⟨r, held'⟩ := res
        exact ih held' (Op_call_isSome L c.op held held' c.e c.args r hheld hc)

/-- C8, witness: from the empty state, a key is set; then a key is
generated, a transaction signed, a default key derived, a malformed key
refused and a signing call panics: the key set first is still held. -/
theorem key_manager_state_machine_witness :
    runCalls sampleLib (initialState sampleLib)
      [⟨.setCurrentKey, (0 : Nat), [.string ("0x" ++ hex40)]⟩,
       ⟨.generateApiKey, (1 : Nat), []⟩,
       ⟨.signChangePubKey, (2 : Nat), [sampleParams 1]⟩,
       ⟨.getDefaultKey, (3 : Nat), [.string "test-seed-1"]⟩,
       ⟨.setCurrentKey, (4 : Nat), [.string "0x00"]⟩,
       ⟨.signChangePubKey, (5 : Nat), [.undefined]⟩] = some (List.replicate 40 1) ∧
    (runCalls sampleLib (some (List.replicate 40 1))
      [⟨.setCurrentKey, (4 : Nat), [.string "zz"]⟩,
       ⟨.signChangePubKey, (5 : Nat), []⟩]).isSome = true :=
  ⟨rfl, (key_manager_state_machine sampleLib).2.2.2.2 _ _ rfl⟩

/-! ## C9: generated keys are key pairs -/

/-- C9: `generateApiKey`, whatever scalar the random sampler yields, and
`getDefaultKey` on a string seed return a record with `error` nil in which
`privateKey` is the hex of the little-endian bytes of the sampled scalar
`sk` and `publicKey` is the hex of the little-endian bytes of
`SchnorrPkFromSk(sk)` for that same `sk`; the hex is lower-case. -/
theorem generated_key_is_pair (L : Lib) (held : KeyState L) (e : L.Entropy)
    (args rest : List JSValue) (seed : String) :
    (∃ sk r, generateApiKey L held e args = .ok (r, held) ∧
      r.field "privateKey" = some (.str (EncodeToString (L.ScalarToLittleEndianBytes sk))) ∧
      r.field "publicKey" = some (.str (EncodeToString
        (L.PointToLittleEndianBytes (L.SchnorrPkFromSk sk)))) ∧
      r.field "error" = some .nil) ∧
    (∃ sk r, getDefaultKey L held e (.string seed :: rest) = .ok (r, held) ∧
      r.field "privateKey" = some (.str (EncodeToString (L.ScalarToLittleEndianBytes sk))) ∧
      r.field "publicKey" = some (.str (EncodeToString
        (L.PointToLittleEndianBytes (L.SchnorrPkFromSk sk)))) ∧
      r.field "error" = some .nil) ∧
    (∀ (bs : List Nat), ∀ c ∈ (EncodeToString bs).data, c ∈ "0123456789abcdef".data) := by
  refine ⟨⟨L.SampleScalar none e, _, rfl, ?_⟩, ⟨L.SampleScalar (some seed) e, _, rfl, ?_⟩, ?_⟩
  · simp [Result.field, List.lookup]
  · simp [Result.field, List.lookup]
  · intro bs c hc
    simp only [EncodeToString, List.mem_flatMap, List.mem_cons, List.mem_singleton,
      List.not_mem_nil, or_false] at hc
    obtain ⟨b, _, rfl | rfl⟩ := hc
    · exact hexDigit_mem _
    · exact hexDigit_mem _

/-- C9, on a concrete run: the scalar 511 sampled at random gives the
private key `ff01` and the public key `0002`, the bytes of 512. -/
theorem generated_key_is_pair_witness :
    generateApiKey sampleLib none (511 : Nat) [] = .ok
      ([("privateKey", .str "ff01"), ("publicKey", .str "0002"), ("error", .nil)], none) ∧
    getDefaultKey sampleLib none (0 : Nat) [.string "test-seed-1"] = .ok
      ([("privateKey", .str "0b00"), ("publicKey", .str "0c00"), ("error", .nil)], none) :=
  ⟨rfl, rfl⟩

end Lighter
